import Mathlib

/-!
Verification of the merechats websocket hub (package discord).

Shallow embedding of the hub's data model and operations:
- Go's `clients` map (userID => *Client) becomes an association list from
  userID to a `SessionId`; pointer identity of `*Client` is modelled by the
  `SessionId` tag into a session heap.
- A `*Client`'s buffered send channel (`make(chan interface{}, sendQueueSize)`)
  becomes a list of payloads together with its capacity; a non-blocking
  `select { case ch <- p: default: }` appends when the queue is below
  capacity and drops the payload otherwise.
- The Mongo collections become in-memory lists; fallibility of the external
  store (InsertOne / UpdateOne / CountDocuments errors) is modelled by
  explicit flags in a `StoreEnv`.
All definitions are translated from the source file of package discord.
-/

namespace MereChats

/-- Session identity: stands for the pointer identity of a Go `*Client`. -/
abbrev SessionId := Nat

/-- Media attached to a message (models.Media). -/
structure Media where
  url : String
  mediaType : String
deriving Repr, DecidableEq

/-- A chat document (models.Chat). Timestamps are abstract ticks. -/
structure Chat where
  chatid : String
  participants : List String
  createdAt : Nat
  updatedAt : Nat
  entityType : String
  entityId : String
deriving Repr, DecidableEq

/-- A chat message document (models.Message). The ObjectID is a string tag. -/
structure Message where
  id : String
  chatID : String
  userID : String
  senderName : String
  avatarURL : String
  content : String
  media : Option Media
  replyTo : Option String
  createdAt : Nat
  editedAt : Option Nat
  deleted : Bool
  readBy : List String
  status : String
deriving Repr, DecidableEq

/-- An inbound websocket envelope (models.IncomingWSMessage). -/
structure Incoming where
  ty : String
  chatID : String
  content : String
  mediaURL : String
  mediaType : String
  online : Bool
  clientID : String
deriving Repr, DecidableEq

/-- An outbound payload, the `map[string]interface\x7b\x7d` values built at the
three dispatch sites, as a closed tagged variant. -/
inductive Payload where
  | message (id sender content : String) (createdAt : Nat) (media : Option Media)
      (chatid : String) (clientId : Option String)
  | typing (sender chatid : String)
  | presence (fromUser : String) (online : Bool)
deriving Repr, DecidableEq

/-- A connected client (the `Client` struct): its user, its buffered send
queue with the queue's capacity, whether `close(c.Send)` has happened, and
whether its websocket connection is still open. -/
structure Session where
  userID : String
  queue : List Payload
  capacity : Nat
  sendClosed : Bool
  connOpen : Bool
deriving Repr, DecidableEq

/-- The hub's shared state: the heap of all live `*Client` objects keyed by
identity, and the `clients.m` map from userID to the installed client. -/
structure Hub where
  heap : List (SessionId × Session)
  registry : List (String × SessionId)
deriving Repr, DecidableEq

/-- The two Mongo collections the hub touches. -/
structure DB where
  chats : List Chat
  messages : List Message
deriving Repr, DecidableEq

/-- Outcomes of the external store and fresh server-assigned data for one
ingest: whether CountDocuments, InsertOne and UpdateOne succeed, the new
ObjectID and the current time. -/
structure StoreEnv where
  countOk : Bool
  insertOk : Bool
  updateOk : Bool
  newId : String
  now : Nat
deriving Repr, DecidableEq

/-- Association-list lookup (a Go map read `m[k]`). -/
def assocLookup {α β : Type} [DecidableEq α] : List (α × β) → α → Option β
  | [], _ => none
  | (k, v) :: rest, key => if k = key then some v else assocLookup rest key

/-- Association-list insert-or-replace (a Go map write `m[k] = v`). -/
def assocSet {α β : Type} [DecidableEq α] : List (α × β) → α → β → List (α × β)
  | [], key, val => [(key, val)]
  | (k, v) :: rest, key, val =>
      if k = key then (key, val) :: rest else (k, v) :: assocSet rest key val

/-- Association-list removal (a Go map `delete(m, k)`). -/
def assocErase {α β : Type} [DecidableEq α] : List (α × β) → α → List (α × β)
  | [], _ => []
  | (k, v) :: rest, key => if k = key then rest else (k, v) :: assocErase rest key

/-- The hub's timing and sizing constants, in seconds / slots. -/
def writeTimeout : Nat := 10

/-- Liveness deadline: the read deadline refreshed on every pong. -/
def pongWait : Nat := 60

/-- Heartbeat interval; the source comments that it must be below pongWait. -/
def pingPeriod : Nat := 30

/-- Capacity of each client's buffered send channel. -/
def sendQueueSize : Nat := 256

/-- Write deadline the writer goroutine sets before each WriteJSON. -/
def writerWriteDeadline : Nat := writeTimeout

/-- Write deadline the heartbeat goroutine sets before each WriteControl ping. -/
def heartbeatWriteDeadline : Nat := writeTimeout

/-- A freshly constructed client as HandleWebSocket builds it: empty buffered
send queue of capacity sendQueueSize, channel open, connection open. -/
def newClient (uid : String) : Session :=
  { userID := uid, queue := [], capacity := sendQueueSize,
    sendClosed := false, connOpen := true }

/-- Client registration (HandleWebSocket: `clients.m[userID] = client` under
the write lock). The new client object is allocated on the heap and the map
entry for userID is overwritten unconditionally; nothing is returned and no
superseded client is touched. -/
def registerClient (h : Hub) (uid : String) (sid : SessionId) : Hub :=
  { heap := assocSet h.heap sid (newClient uid),
    registry := assocSet h.registry uid sid }

/-- The deferred cleanup of HandleWebSocket for the handler owning session
sid of user uid: under the write lock, if `clients.m[userID]` holds any
client c (checked by userID only), that entry is deleted and c.Send is
closed; then the handler's own connection is closed. -/
def cleanupClient (h : Hub) (uid : String) (sid : SessionId) : Hub :=
  let h1 : Hub :=
    match assocLookup h.registry uid with
    | some sid2 =>
        let h' : Hub := { h with registry := assocErase h.registry uid }
        match assocLookup h'.heap sid2 with
        | some s =>
            { h' with heap := assocSet h'.heap sid2 { s with sendClosed := true } }
        | none => h'
    | none => h
  match assocLookup h1.heap sid with
  | some s => { h1 with heap := assocSet h1.heap sid { s with connOpen := false } }
  | none => h1

/-- Non-blocking send on a client's buffered channel:
`select \x7b case client.Send <- payload: default: ... drop ... \x7d`. -/
def trySend (s : Session) (p : Payload) : Session :=
  if s.queue.length < s.capacity then { s with queue := s.queue ++ [p] } else s

/-- One delivery step of a broadcast loop body onto the client with identity
sid, when that client exists on the heap. -/
def enqueueTo (h : Hub) (sid : SessionId) (p : Payload) : Hub :=
  match assocLookup h.heap sid with
  | some s => { h with heap := assocSet h.heap sid (trySend s p) }
  | none => h

/-- The `for uid, client := range targets` delivery loop of the broadcast
functions: a non-blocking send to every resolved target. -/
def deliverAll : List (String × SessionId) → Hub → Payload → Hub
  | [], h, _ => h
  | t :: rest, h, p => deliverAll rest (enqueueTo h t.2 p) p

/-- One iteration of the target-resolution loop of broadcastToChat:
`if c, ok := clients.m[p]; ok \x7b targets[p] = c \x7d`. -/
def addTarget (reg : List (String × SessionId))
    (acc : List (String × SessionId)) (u : String) : List (String × SessionId) :=
  match assocLookup reg u with
  | some sid => assocSet acc u sid
  | none => acc

/-- Target resolution of broadcastToChat: intersect the chat's participants
with the clients map, building the `targets` map. -/
def addTargets (reg : List (String × SessionId)) :
    List String → List (String × SessionId) → List (String × SessionId)
  | [], acc => acc
  | u :: rest, acc => addTargets reg rest (addTarget reg acc u)

/-- The `targets` map built by broadcastToChat from a participant list. -/
def buildTargets (reg : List (String × SessionId)) (ps : List String) :
    List (String × SessionId) :=
  addTargets reg ps []

/-- FindOne on MereCollection by chatid: the first chat document matching. -/
def findChat (db : DB) (cid : String) : Option Chat :=
  db.chats.find? (fun c => c.chatid == cid)

/-- broadcastToChat: look the chat up; if absent, log and return; otherwise
resolve the live participants and deliver non-blockingly to each. -/
def broadcastToChat (db : DB) (h : Hub) (chatHex : String) (payload : Payload) : Hub :=
  match findChat db chatHex with
  | none => h
  | some chat => deliverAll (buildTargets h.registry chat.participants) h payload

/-- broadcastGlobal: snapshot every client in the map and deliver
non-blockingly to each, the sender's own client included. -/
def broadcastGlobal (h : Hub) (payload : Payload) : Hub :=
  deliverAll h.registry h payload

/-- CountDocuments on MereCollection with filter
`\x7bchatid: cid, participants: userID\x7d`. -/
def countMembership (db : DB) (cid uid : String) : Nat :=
  (db.chats.filter (fun c => c.chatid == cid && c.participants.contains uid)).length

/-- UpdateOne on MereCollection setting updatedAt on the first chat whose
chatid matches. -/
def updateChatTimestamp : List Chat → String → Nat → List Chat
  | [], _, _ => []
  | c :: rest, cid, now =>
      if c.chatid == cid then { c with updatedAt := now } :: rest
      else c :: updateChatTimestamp rest cid now

/-- The message document persistMessage builds and InsertOne stores, with
the server-assigned ObjectID written back into it; every field the Go
struct zero-initialises is at its zero value. -/
def mkMessage (env : StoreEnv) (chatID sender content mediaURL mediaType : String) :
    Message :=
  { id := env.newId
    chatID := chatID
    userID := sender
    senderName := ""
    avatarURL := ""
    content := content
    media := if mediaURL ≠ "" ∧ mediaType ≠ "" then
        some { url := mediaURL, mediaType := mediaType } else none
    replyTo := none
    createdAt := env.now
    editedAt := none
    deleted := false
    readBy := []
    status := "" }

/-- persistMessage: reject when both content and media URL are empty; insert
the message (fallible); then update the chat's updatedAt discarding any
error of that update; return the stored message. -/
def persistMessage (env : StoreEnv) (db : DB)
    (chatID sender content mediaURL mediaType : String) :
    Except String (Message × DB) :=
  if content = "" ∧ mediaURL = "" then
    Except.error "empty content and media"
  else
    if env.insertOk then
      let msg := mkMessage env chatID sender content mediaURL mediaType
      let db1 : DB := { db with messages := db.messages ++ [msg] }
      let db2 : DB :=
        if env.updateOk then
          { db1 with chats := updateChatTimestamp db1.chats chatID env.now }
        else db1
      Except.ok (msg, db2)
    else
      Except.error "insert failed"

/-- The broadcast payload handleIncomingMessage builds from the persisted
message, echoing clientId only when the envelope carried one. -/
def msgPayload (msg : Message) (clientID : String) : Payload :=
  Payload.message msg.id msg.userID msg.content msg.createdAt msg.media msg.chatID
    (if clientID ≠ "" then some clientID else none)

/-- handleIncomingMessage: check the sender's membership of the chat
(aborting silently on a query error or a zero count), persist the message
(aborting silently on error), then broadcast the persisted message. -/
def handleIncomingMessage (env : StoreEnv) (db : DB) (h : Hub)
    (senderID : String) (m : Incoming) : DB × Hub :=
  let cid := m.chatID
  if !env.countOk then (db, h)
  else if countMembership db cid senderID = 0 then (db, h)
  else
    match persistMessage env db cid senderID m.content m.mediaURL m.mediaType with
    | Except.error _ => (db, h)
    | Except.ok (msg, db2) => (db2, broadcastToChat db2 h cid (msgPayload msg m.clientID))

/-- What the reader loop received on one ReadJSON call. -/
inductive ReadResult where
  | ok (m : Incoming)
  | err
deriving Repr, DecidableEq

/-- One iteration of the reader loop: on a read error the loop breaks
(third component false); otherwise the envelope is dispatched by its type
and the loop continues, an unknown type being only logged. -/
def readerStep (env : StoreEnv) (db : DB) (h : Hub) (userID : String)
    (r : ReadResult) : DB × Hub × Bool :=
  match r with
  | ReadResult.err => (db, h, false)
  | ReadResult.ok m =>
      if m.ty = "message" then
        let dh := handleIncomingMessage env db h userID m
        (dh.1, dh.2, true)
      else if m.ty = "typing" then
        (db, broadcastToChat db h m.chatID (Payload.typing userID m.chatID), true)
      else if m.ty = "presence" then
        (db, broadcastGlobal h (Payload.presence userID m.online), true)
      else
        (db, h, true)

/-- A hub holding no clients at all. -/
def hubEmpty : Hub := { heap := [], registry := [] }

/-- The state after user u connects twice: session 0 (A) registered first,
then session 1 (B) registered over it. -/
def twoLogins : Hub := registerClient (registerClient hubEmpty "u" 0) "u" 1

/-- The state after session A's handler returns and runs its deferred
cleanup while B is the installed client. -/
def afterTeardownA : Hub := cleanupClient twoLogins "u" 0

/-- A chat room used to evaluate the model on concrete inputs. -/
def wChat : Chat :=
  { chatid := "c1", participants := ["a", "b", "c"], createdAt := 0,
    updatedAt := 0, entityType := "", entityId := "" }

/-- A store holding the one chat room and no messages. -/
def wDB : DB := { chats := [wChat], messages := [] }

/-- A hub where participants a and b are connected and c is not. -/
def wHub : Hub :=
  { heap := [(0, newClient "a"), (1, newClient "b")],
    registry := [("a", 0), ("b", 1)] }

/-- A store environment where every external operation succeeds. -/
def wEnv : StoreEnv :=
  { countOk := true, insertOk := true, updateOk := true, newId := "m1", now := 7 }

/-- A store environment where the last-activity update fails. -/
def wEnvU : StoreEnv :=
  { countOk := true, insertOk := true, updateOk := false, newId := "m1", now := 7 }

/-- A message envelope with empty content and empty media reference. -/
def wEmptyMsg : Incoming :=
  { ty := "message", chatID := "c1", content := "", mediaURL := "",
    mediaType := "", online := false, clientID := "" }

/-- A well-formed chat message envelope. -/
def wMsgHi : Incoming :=
  { ty := "message", chatID := "c1", content := "hi", mediaURL := "",
    mediaType := "", online := false, clientID := "k1" }

/-- A typing envelope for room c1. -/
def wTypingMsg : Incoming :=
  { ty := "typing", chatID := "c1", content := "", mediaURL := "",
    mediaType := "", online := false, clientID := "" }

/-- An envelope of a type the dispatch switch does not know. -/
def wPingMsg : Incoming :=
  { ty := "ping", chatID := "c1", content := "", mediaURL := "",
    mediaType := "", online := false, clientID := "" }

/-! Lemmas about the association-list operations. -/

theorem assocLookup_set_self {α β : Type} [DecidableEq α]
    (l : List (α × β)) (k : α) (v : β) :
    assocLookup (assocSet l k v) k = some v := by
  induction l with
  | nil => simp [assocSet, assocLookup]
  | cons kv rest ih =>
      obtain ⟨k0, v0⟩ := kv
      by_cases h : k0 = k
      · simp [assocSet, h, assocLookup]
      · simp [assocSet, h, assocLookup, ih]

theorem assocLookup_set_ne {α β : Type} [DecidableEq α]
    (l : List (α × β)) (k : α) (v : β) (k' : α) (hne : k' ≠ k) :
    assocLookup (assocSet l k v) k' = assocLookup l k' := by
  induction l with
  | nil => simp [assocSet, assocLookup, Ne.symm hne]
  | cons kv rest ih =>
      obtain ⟨k0, v0⟩ := kv
      by_cases h : k0 = k
      · subst h
        simp [assocSet, assocLookup, Ne.symm hne]
      · by_cases h2 : k0 = k'
        · subst h2
          simp [assocSet, h, assocLookup]
        · simp [assocSet, h, assocLookup, h2, ih]

theorem mem_assocSet_self {α β : Type} [DecidableEq α]
    (l : List (α × β)) (k : α) (v : β) :
    (k, v) ∈ assocSet l k v := by
  induction l with
  | nil => simp [assocSet]
  | cons kv rest ih =>
      obtain ⟨k0, v0⟩ := kv
      by_cases h : k0 = k
      · simp [assocSet, h]
      · simp [assocSet, h]
        right
        exact ih

theorem mem_assocSet_of_ne {α β : Type} [DecidableEq α]
    (l : List (α × β)) (k : α) (v : β) (a : α) (b : β)
    (hmem : (a, b) ∈ l) (hne : a ≠ k) :
    (a, b) ∈ assocSet l k v := by
  induction l with
  | nil => cases hmem
  | cons kv rest ih =>
      obtain ⟨k0, v0⟩ := kv
      rcases List.mem_cons.mp hmem with heq | hmem'
      · rw [Prod.mk.injEq] at heq
        obtain ⟨rfl, rfl⟩ := heq
        simp [assocSet, hne]
      · by_cases h : k0 = k
        · simp [assocSet, h]
          right
          exact hmem'
        · simp [assocSet, h]
          right
          exact ih hmem'

/-! Lemmas about non-blocking delivery. -/

theorem enqueueTo_heap_self (h : Hub) (sid : SessionId) (p : Payload) (s : Session)
    (hm : assocLookup h.heap sid = some s) :
    assocLookup (enqueueTo h sid p).heap sid = some (trySend s p) := by
  simp [enqueueTo, hm, assocLookup_set_self]

theorem enqueueTo_heap_ne (h : Hub) (sid sid' : SessionId) (p : Payload)
    (hne : sid' ≠ sid) :
    assocLookup (enqueueTo h sid p).heap sid' = assocLookup h.heap sid' := by
  cases hm : assocLookup h.heap sid with
  | none => simp [enqueueTo, hm]
  | some s => simp [enqueueTo, hm, assocLookup_set_ne _ _ _ _ hne]

theorem deliverAll_heap_notin (ts : List (String × SessionId)) (h : Hub)
    (p : Payload) (sid : SessionId) (hnot : sid ∉ ts.map Prod.snd) :
    assocLookup (deliverAll ts h p).heap sid = assocLookup h.heap sid := by
  induction ts generalizing h with
  | nil => rfl
  | cons t rest ih =>
      have h1 : sid ∉ rest.map Prod.snd := by
        intro hc
        exact hnot (by simp [hc])
      have h2 : sid ≠ t.2 := by
        intro hc
        exact hnot (by simp [hc])
      show assocLookup (deliverAll rest (enqueueTo h t.2 p) p).heap sid = _
      rw [ih _ h1, enqueueTo_heap_ne _ _ _ _ h2]

theorem deliverAll_heap_mem (ts : List (String × SessionId)) (h : Hub)
    (p : Payload) (u : String) (sid : SessionId) (s : Session)
    (hnd : (ts.map Prod.snd).Nodup) (hmem : (u, sid) ∈ ts)
    (hs : assocLookup h.heap sid = some s) :
    assocLookup (deliverAll ts h p).heap sid = some (trySend s p) := by
  induction ts generalizing h with
  | nil => cases hmem
  | cons t rest ih =>
      have hnd' : t.2 ∉ rest.map Prod.snd ∧ (rest.map Prod.snd).Nodup := by
        rw [List.map_cons] at hnd
        exact List.nodup_cons.mp hnd
      rcases List.mem_cons.mp hmem with heq | hmem'
      · have hsid : t.2 = sid := by rw [← heq]
        show assocLookup (deliverAll rest (enqueueTo h t.2 p) p).heap sid = _
        rw [deliverAll_heap_notin rest _ p sid (hsid ▸ hnd'.1)]
        rw [hsid]
        exact enqueueTo_heap_self h sid p s hs
      · have hsne : sid ≠ t.2 := by
          intro hc
          apply hnd'.1
          rw [← hc]
          exact List.mem_map.mpr ⟨(u, sid), hmem', rfl⟩
        show assocLookup (deliverAll rest (enqueueTo h t.2 p) p).heap sid = _
        apply ih (enqueueTo h t.2 p) hnd'.2 hmem'
        rw [enqueueTo_heap_ne _ _ _ _ hsne]
        exact hs

/-! Lemmas about target resolution. -/

theorem mem_addTargets_of_acc (reg : List (String × SessionId)) (ps : List String)
    (acc : List (String × SessionId)) (u : String) (sid : SessionId)
    (hreg : assocLookup reg u = some sid) (hacc : (u, sid) ∈ acc) :
    (u, sid) ∈ addTargets reg ps acc := by
  induction ps generalizing acc with
  | nil => exact hacc
  | cons p0 rest ih =>
      show (u, sid) ∈ addTargets reg rest (addTarget reg acc p0)
      apply ih
      unfold addTarget
      cases hl : assocLookup reg p0 with
      | none => exact hacc
      | some sid0 =>
          by_cases hup : p0 = u
          · subst hup
            have : sid0 = sid := by
              have := hl.symm.trans hreg
              exact Option.some.inj this
            subst this
            exact mem_assocSet_self acc p0 sid0
          · exact mem_assocSet_of_ne acc p0 sid0 u sid hacc (fun hc => hup hc.symm)

theorem mem_addTargets (reg : List (String × SessionId)) (ps : List String)
    (acc : List (String × SessionId)) (u : String) (sid : SessionId)
    (hu : u ∈ ps) (hreg : assocLookup reg u = some sid) :
    (u, sid) ∈ addTargets reg ps acc := by
  induction ps generalizing acc with
  | nil => cases hu
  | cons p0 rest ih =>
      show (u, sid) ∈ addTargets reg rest (addTarget reg acc p0)
      by_cases hup : p0 = u
      · subst hup
        have hstep : addTarget reg acc p0 = assocSet acc p0 sid := by
          simp [addTarget, hreg]
        rw [hstep]
        exact mem_addTargets_of_acc reg rest _ p0 sid hreg (mem_assocSet_self acc p0 sid)
      · have hu' : u ∈ rest := by
          rcases List.mem_cons.mp hu with h | h
          · exact absurd h.symm hup
          · exact h
        exact ih _ hu'

theorem mem_buildTargets (reg : List (String × SessionId)) (ps : List String)
    (u : String) (sid : SessionId) (hu : u ∈ ps)
    (hreg : assocLookup reg u = some sid) :
    (u, sid) ∈ buildTargets reg ps :=
  mem_addTargets reg ps [] u sid hu hreg

/-! Claim theorems. -/

/-- C1: the deferred cleanup removes the registry mapping by userID with no
identity check. Registering session 1 (B) for user u over session 0 (A) and
then completing A's teardown leaves user u with no registered session at
all — the claimed identity-guarded unregister is not what the code does —
and B's send channel has even been closed by A's cleanup. -/
theorem c1_teardown_evicts_successor :
    assocLookup twoLogins.registry "u" = some 1 ∧
    assocLookup afterTeardownA.registry "u" = none ∧
    (assocLookup afterTeardownA.heap 1).map Session.sendClosed = some true ∧
    (assocLookup afterTeardownA.heap 1).map Session.userID = some "u" := by
  decide

/-- C2: registration overwrites the clients map entry without returning the
superseded session and without terminating it: after user u's second login,
session 1 is installed while superseded session 0 is still fully alive
(connection open, send channel open) and merely orphaned. -/
theorem c2_register_orphans_prior :
    assocLookup twoLogins.registry "u" = some 1 ∧
    assocLookup twoLogins.heap 0 = some (newClient "u") ∧
    (assocLookup twoLogins.heap 0).map Session.connOpen = some true ∧
    (assocLookup twoLogins.heap 0).map Session.sendClosed = some false := by
  decide

/-- C9: the liveness deadline (60s) equals twice the heartbeat interval
(30s) and strictly exceeds it, and both the writer goroutine's WriteJSON and
the heartbeat goroutine's ping use the 10s write timeout as their deadline. -/
theorem c9_timeout_relationships :
    pongWait = 2 * pingPeriod ∧ pingPeriod < pongWait ∧
    writerWriteDeadline = writeTimeout ∧ heartbeatWriteDeadline = writeTimeout ∧
    writeTimeout = 10 ∧ pingPeriod = 30 ∧ pongWait = 60 := by
  decide

/-- C3: broadcasting to a room delivers the frame with the enqueue-or-drop
policy: for every connected participant, the frame is appended to its queue
when the queue is below capacity and the queue is left unchanged (the frame
dropped) when it is full; the broadcast is a total function, raising no
error to the caller. -/
theorem c3_broadcast_backpressure (db : DB) (h : Hub) (cid : String) (p : Payload)
    (chat : Chat) (u : String) (sid : SessionId) (s : Session)
    (hchat : findChat db cid = some chat)
    (hnd : ((buildTargets h.registry chat.participants).map Prod.snd).Nodup)
    (hu : u ∈ chat.participants)
    (hreg : assocLookup h.registry u = some sid)
    (hheap : assocLookup h.heap sid = some s) :
    (s.queue.length < s.capacity →
      assocLookup (broadcastToChat db h cid p).heap sid
        = some { s with queue := s.queue ++ [p] }) ∧
    (¬ s.queue.length < s.capacity →
      assocLookup (broadcastToChat db h cid p).heap sid = some s) := by
  have hkey : assocLookup (broadcastToChat db h cid p).heap sid = some (trySend s p) := by
    simp only [broadcastToChat, hchat]
    exact deliverAll_heap_mem _ h p u sid s hnd
      (mem_buildTargets _ _ _ _ hu hreg) hheap
  constructor
  · intro hlt
    rw [hkey]
    simp [trySend, hlt]
  · intro hge
    rw [hkey]
    simp [trySend, hge]

/-- C3 witness: in the room c1 with connected participants a and b, a
broadcast reaches a's empty queue; the full-queue branch is available as an
implication. -/
theorem c3_broadcast_backpressure_witness :
    findChat wDB "c1" = some wChat ∧
    "a" ∈ wChat.participants ∧
    assocLookup wHub.registry "a" = some 0 ∧
    (((newClient "a").queue.length < (newClient "a").capacity →
      assocLookup (broadcastToChat wDB wHub "c1" (Payload.typing "a" "c1")).heap 0
        = some { newClient "a" with
                   queue := (newClient "a").queue ++ [Payload.typing "a" "c1"] }) ∧
     (¬ (newClient "a").queue.length < (newClient "a").capacity →
      assocLookup (broadcastToChat wDB wHub "c1" (Payload.typing "a" "c1")).heap 0
        = some (newClient "a"))) :=
  ⟨by decide, by decide, by decide,
   c3_broadcast_backpressure wDB wHub "c1" (Payload.typing "a" "c1") wChat "a" 0
     (newClient "a") (by decide) (by decide) (by decide) (by decide) (by decide)⟩

/-- C4: a global broadcast of a presence frame enqueues it onto the queue of
every registered session that has spare capacity, the originating session's
own queue included. -/
theorem c4_presence_fanout (h : Hub) (fromU : String) (online : Bool)
    (u : String) (sid : SessionId) (s : Session)
    (hnd : (h.registry.map Prod.snd).Nodup)
    (hmem : (u, sid) ∈ h.registry)
    (hheap : assocLookup h.heap sid = some s)
    (hcap : s.queue.length < s.capacity) :
    assocLookup (broadcastGlobal h (Payload.presence fromU online)).heap sid
      = some { s with queue := s.queue ++ [Payload.presence fromU online] } := by
  have hkey := deliverAll_heap_mem h.registry h (Payload.presence fromU online)
    u sid s hnd hmem hheap
  show assocLookup (deliverAll h.registry h (Payload.presence fromU online)).heap sid = _
  rw [hkey]
  simp [trySend, hcap]

/-- C4 witness: the presence frame originated by a reaches a's own queue. -/
theorem c4_presence_fanout_witness :
    (wHub.registry.map Prod.snd).Nodup ∧
    ("a", 0) ∈ wHub.registry ∧
    assocLookup (broadcastGlobal wHub (Payload.presence "a" true)).heap 0
      = some { newClient "a" with
                 queue := (newClient "a").queue ++ [Payload.presence "a" true] } :=
  ⟨by decide, by decide,
   c4_presence_fanout wHub "a" true "a" 0 (newClient "a")
     (by decide) (by decide) (by decide) (by decide)⟩

/-- C5: a message whose content and media URL are both empty is rejected by
persistMessage with an error, and the full ingest path leaves the store and
every client queue unchanged. -/
theorem c5_empty_message_rejected (env : StoreEnv) (db : DB) (h : Hub)
    (sender : String) (m : Incoming)
    (hc : m.content = "") (hm : m.mediaURL = "") :
    persistMessage env db m.chatID sender m.content m.mediaURL m.mediaType
      = Except.error "empty content and media" ∧
    handleIncomingMessage env db h sender m = (db, h) := by
  have hp : persistMessage env db m.chatID sender m.content m.mediaURL m.mediaType
      = Except.error "empty content and media" := by
    simp [persistMessage, hc, hm]
  refine ⟨hp, ?_⟩
  cases hco : env.countOk with
  | false => simp [handleIncomingMessage, hco]
  | true =>
      by_cases hcm : countMembership db m.chatID sender = 0
      · simp [handleIncomingMessage, hco, hcm]
      · simp [handleIncomingMessage, hco, hcm, hp]

/-- C5 witness: the empty envelope is rejected and nothing changes. -/
theorem c5_empty_message_rejected_witness :
    wEmptyMsg.content = "" ∧ wEmptyMsg.mediaURL = "" ∧
    (persistMessage wEnv wDB wEmptyMsg.chatID "a" wEmptyMsg.content
        wEmptyMsg.mediaURL wEmptyMsg.mediaType
      = Except.error "empty content and media" ∧
     handleIncomingMessage wEnv wDB wHub "a" wEmptyMsg = (wDB, wHub)) :=
  ⟨rfl, rfl,
   c5_empty_message_rejected wEnv wDB wHub "a" wEmptyMsg rfl rfl⟩

/-- C6: when the sender belongs to no chat document of the target room, the
ingest path returns with the store and the hub unchanged: nothing is
persisted, no frame is enqueued to anyone, and no error reaches the sender. -/
theorem c6_unauthorized_sender_dropped (env : StoreEnv) (db : DB) (h : Hub)
    (sender : String) (m : Incoming)
    (hok : env.countOk = true)
    (hmem : ∀ chat ∈ db.chats, chat.chatid = m.chatID → sender ∉ chat.participants) :
    handleIncomingMessage env db h sender m = (db, h) := by
  have hcnt : countMembership db m.chatID sender = 0 := by
    unfold countMembership
    rw [List.length_eq_zero, List.filter_eq_nil_iff]
    intro c hc
    simp only [Bool.and_eq_true, beq_iff_eq, not_and]
    intro hchat hcont
    exact hmem c hc hchat (List.elem_iff.mp hcont)
  simp [handleIncomingMessage, hok, hcnt]

/-- C6 witness: sender z is not in room c1 and the state is untouched. -/
theorem c6_unauthorized_sender_dropped_witness :
    wEnv.countOk = true ∧
    (∀ chat ∈ wDB.chats, chat.chatid = wMsgHi.chatID → "z" ∉ chat.participants) ∧
    handleIncomingMessage wEnv wDB wHub "z" wMsgHi = (wDB, wHub) :=
  ⟨rfl, by decide,
   c6_unauthorized_sender_dropped wEnv wDB wHub "z" wMsgHi rfl (by decide)⟩

/-- C7: an insert failure aborts the ingest with no broadcast and no store
change, while a failure of the best-effort last-activity update does not
abort: persistMessage still returns the stored message with the chats list
untouched, and the ingest path still broadcasts it. -/
theorem c7_persist_failure_policy (env : StoreEnv) (db : DB) (h : Hub)
    (sender : String) (m : Incoming)
    (hupd : env.updateOk = false)
    (hco : env.countOk = true)
    (hcm : countMembership db m.chatID sender ≠ 0)
    (hempty : ¬(m.content = "" ∧ m.mediaURL = "")) :
    (env.insertOk = false → handleIncomingMessage env db h sender m = (db, h)) ∧
    (env.insertOk = true →
      persistMessage env db m.chatID sender m.content m.mediaURL m.mediaType
        = Except.ok (mkMessage env m.chatID sender m.content m.mediaURL m.mediaType,
            { db with messages := db.messages
                ++ [mkMessage env m.chatID sender m.content m.mediaURL m.mediaType] }) ∧
      handleIncomingMessage env db h sender m
        = ({ db with messages := db.messages
                ++ [mkMessage env m.chatID sender m.content m.mediaURL m.mediaType] },
           broadcastToChat
             { db with messages := db.messages
                 ++ [mkMessage env m.chatID sender m.content m.mediaURL m.mediaType] }
             h m.chatID
             (msgPayload (mkMessage env m.chatID sender m.content m.mediaURL m.mediaType)
               m.clientID))) := by
  constructor
  · intro hins
    have hp : persistMessage env db m.chatID sender m.content m.mediaURL m.mediaType
        = Except.error "insert failed" := by
      simp [persistMessage, hempty, hins]
    simp [handleIncomingMessage, hco, hcm, hp]
  · intro hins
    have hp : persistMessage env db m.chatID sender m.content m.mediaURL m.mediaType
        = Except.ok (mkMessage env m.chatID sender m.content m.mediaURL m.mediaType,
            { db with messages := db.messages
                ++ [mkMessage env m.chatID sender m.content m.mediaURL m.mediaType] }) := by
      simp [persistMessage, hempty, hins, hupd]
    refine ⟨hp, ?_⟩
    simp [handleIncomingMessage, hco, hcm, hp]

/-- C7 witness: with the last-activity update failing, the message from a
is still persisted, returned and broadcast. -/
theorem c7_persist_failure_policy_witness :
    wEnvU.updateOk = false ∧
    countMembership wDB wMsgHi.chatID "a" ≠ 0 ∧
    (wEnvU.insertOk = true →
      persistMessage wEnvU wDB wMsgHi.chatID "a" wMsgHi.content wMsgHi.mediaURL
          wMsgHi.mediaType
        = Except.ok (mkMessage wEnvU wMsgHi.chatID "a" wMsgHi.content wMsgHi.mediaURL
              wMsgHi.mediaType,
            { wDB with messages := wDB.messages
                ++ [mkMessage wEnvU wMsgHi.chatID "a" wMsgHi.content wMsgHi.mediaURL
                      wMsgHi.mediaType] }) ∧
      handleIncomingMessage wEnvU wDB wHub "a" wMsgHi
        = ({ wDB with messages := wDB.messages
                ++ [mkMessage wEnvU wMsgHi.chatID "a" wMsgHi.content wMsgHi.mediaURL
                      wMsgHi.mediaType] },
           broadcastToChat
             { wDB with messages := wDB.messages
                 ++ [mkMessage wEnvU wMsgHi.chatID "a" wMsgHi.content wMsgHi.mediaURL
                       wMsgHi.mediaType] }
             wHub wMsgHi.chatID
             (msgPayload (mkMessage wEnvU wMsgHi.chatID "a" wMsgHi.content
                 wMsgHi.mediaURL wMsgHi.mediaType) wMsgHi.clientID))) :=
  ⟨rfl, by decide,
   (c7_persist_failure_policy wEnvU wDB wHub "a" wMsgHi rfl rfl (by decide)
     (by decide)).2⟩

/-- C8: an envelope whose type is none of message, typing or presence leaves
the store and the hub unchanged, sends no frame, and the reader loop
continues. -/
theorem c8_unknown_type_ignored (env : StoreEnv) (db : DB) (h : Hub)
    (uid : String) (m : Incoming)
    (h1 : m.ty ≠ "message") (h2 : m.ty ≠ "typing") (h3 : m.ty ≠ "presence") :
    readerStep env db h uid (ReadResult.ok m) = (db, h, true) := by
  simp [readerStep, h1, h2, h3]

/-- C8 witness: a ping-typed envelope is ignored and the loop continues. -/
theorem c8_unknown_type_ignored_witness :
    wPingMsg.ty ≠ "message" ∧ wPingMsg.ty ≠ "typing" ∧ wPingMsg.ty ≠ "presence" ∧
    readerStep wEnv wDB wHub "a" (ReadResult.ok wPingMsg) = (wDB, wHub, true) :=
  ⟨by decide, by decide, by decide,
   c8_unknown_type_ignored wEnv wDB wHub "a" wPingMsg (by decide) (by decide)
     (by decide)⟩

/-- C10: a typing envelope is dispatched straight to the room broadcast with
no membership check on the sender: even for a sender outside the room's
participant set, every connected participant with spare queue capacity gets
the typing frame, and the reader loop continues. -/
theorem c10_typing_skips_membership (env : StoreEnv) (db : DB) (h : Hub)
    (sender : String) (m : Incoming) (chat : Chat) (u : String)
    (sid : SessionId) (s : Session)
    (hty : m.ty = "typing")
    (hchat : findChat db m.chatID = some chat)
    (_hnonmem : sender ∉ chat.participants)
    (hnd : ((buildTargets h.registry chat.participants).map Prod.snd).Nodup)
    (hu : u ∈ chat.participants)
    (hreg : assocLookup h.registry u = some sid)
    (hheap : assocLookup h.heap sid = some s)
    (hcap : s.queue.length < s.capacity) :
    readerStep env db h sender (ReadResult.ok m)
      = (db, broadcastToChat db h m.chatID (Payload.typing sender m.chatID), true) ∧
    assocLookup (broadcastToChat db h m.chatID (Payload.typing sender m.chatID)).heap sid
      = some { s with queue := s.queue ++ [Payload.typing sender m.chatID] } := by
  constructor
  · simp [readerStep, hty]
  · have hkey : assocLookup
        (broadcastToChat db h m.chatID (Payload.typing sender m.chatID)).heap sid
        = some (trySend s (Payload.typing sender m.chatID)) := by
      simp only [broadcastToChat, hchat]
      exact deliverAll_heap_mem _ h _ u sid s hnd
        (mem_buildTargets _ _ _ _ hu hreg) hheap
    rw [hkey]
    simp [trySend, hcap]

/-- C10 witness: non-member z types in room c1 and connected member a still
receives the typing frame. -/
theorem c10_typing_skips_membership_witness :
    wTypingMsg.ty = "typing" ∧
    "z" ∉ wChat.participants ∧
    "a" ∈ wChat.participants ∧
    (readerStep wEnv wDB wHub "z" (ReadResult.ok wTypingMsg)
       = (wDB, broadcastToChat wDB wHub wTypingMsg.chatID
            (Payload.typing "z" wTypingMsg.chatID), true) ∧
     assocLookup (broadcastToChat wDB wHub wTypingMsg.chatID
         (Payload.typing "z" wTypingMsg.chatID)).heap 0
       = some { newClient "a" with
            queue := (newClient "a").queue ++ [Payload.typing "z" wTypingMsg.chatID] }) :=
  ⟨rfl, by decide, by decide,
   c10_typing_skips_membership wEnv wDB wHub "z" wTypingMsg wChat "a" 0
     (newClient "a") rfl (by decide) (by decide) (by decide) (by decide) (by decide)
     (by decide) (by decide)⟩

end MereChats
